import Mathlib

/-!
Verification development for the slicec IDL compiler core.

This file gives a shallow embedding, in Lean 4, of the parts of slicec that
the specification talks about:

* the diagnostics engine (`Diagnostic`, `DiagnosticKind`, notes, spans);
* the operation validators from `src/validators/operations.rs`
  (exception-specification legality, `@returns` tag rules, `@throws` tag rules,
  the base-chain compatibility walk `is_documented_exception_compatible`);
* the C# class visitor from `slicec-cs/src/class_visitor.rs`
  (primary constructors and the encode/decode slicing protocol);
* the encoded-result struct generator from `slicec-cs/src/encoded_result.rs`;
* file resolution from `src/utils/file_util.rs`
  (`find_slice_files`, `resolve_files_from`, duplicate handling);
* the `CustomType::supported_encodings` accessor from
  `src/grammar/elements/custom_type.rs`.

Rust values are translated as follows: `Option<T>` becomes `Option T`,
`Result<T, E>` becomes `Except E T` (a panicking `unwrap` becomes an
`Except String` value), `Vec<T>` becomes `List T`, struct fields keep their
names, and functions that push into the mutable `Diagnostics` accumulator
instead return the list of diagnostics they push, in push order.
-/

namespace Slicec

/-! ## Diagnostics engine -/

/-- Compilation mode of a Slice file (the two wire-encoding rule sets). -/
inductive CompilationMode where
  | slice1
  | slice2
deriving DecidableEq, Repr

/-- A source span: start and end positions (abstracted to offsets). -/
structure Span where
  startPos : Nat
  endPos : Nat
deriving DecidableEq, Repr

/-- Combination of two spans, used for `returns_tag.span() + returns_tag.message.span()`.
The `Add` impl for `Span` is outside the shown sources; modelled as the convex hull. -/
def Span.add (a b : Span) : Span :=
  { startPos := min a.startPos b.startPos, endPos := max a.endPos b.endPos }

/-- A note attached to a diagnostic: message text plus an optional secondary span. -/
structure Note where
  message : String
  span : Option Span
deriving DecidableEq, Repr

/-- The diagnostic kinds used by the embedded portions of the compiler.
`error*` constructors correspond to `Error::...`, `lint*` to `Lint::...`. -/
inductive DiagnosticKind where
  | errorExceptionSpecificationNotSupported
  | errorIo (action : String) (path : String) (error : String)
  | lintIncorrectDocComment (message : String)
  | lintDuplicateFile (path : String)
deriving DecidableEq, Repr

/-- True exactly for `Lint::...` diagnostics (advisory; generation proceeds). -/
def DiagnosticKind.isLint : DiagnosticKind → Bool
  | .lintIncorrectDocComment _ => true
  | .lintDuplicateFile _ => true
  | .errorExceptionSpecificationNotSupported => false
  | .errorIo _ _ _ => false

/-- True exactly for `Error::...` diagnostics (hard errors). -/
def DiagnosticKind.isError (k : DiagnosticKind) : Bool :=
  !k.isLint

/-- One diagnostic: kind, an optional primary span, an optional scope string,
and the attached notes, mirroring `Diagnostic` with its builder methods
`set_span`, `set_scope`, `add_note`. -/
structure Diagnostic where
  kind : DiagnosticKind
  span : Option Span
  scope : Option String
  notes : List Note
deriving DecidableEq, Repr

/-! ## Exceptions and the base-chain compatibility walk

`Exception` in Rust carries `base: Option<...>`; the accessor is
`base_exception()`. We use the isomorphic two-constructor form so that
equality is derivable and recursion is structural: `root` is an exception
with no base, `derived` one with a base. -/

/-- An exception entity with its single-inheritance base chain. -/
inductive Exc where
  | root (identifier : String)
  | derived (identifier : String) (base : Exc)
deriving DecidableEq, Repr

/-- The `identifier()` accessor. -/
def Exc.identifier : Exc → String
  | .root id => id
  | .derived id _ => id

/-- The `base_exception()` accessor: `Some` base or `None`. -/
def Exc.base_exception : Exc → Option Exc
  | .root _ => none
  | .derived _ base => some base

/-- Embedding of `is_documented_exception_compatible` from
`src/validators/operations.rs`: true if `documented_exception` is the same as,
or derives from, `thrown_exception`. Pointer equality on interned entities is
modelled by structural equality. -/
def is_documented_exception_compatible (thrown_exception documented_exception : Exc) : Bool :=
  if thrown_exception = documented_exception then
    true
  else
    match documented_exception with
    | .derived _ base_exception => is_documented_exception_compatible thrown_exception base_exception
    | .root _ => false

/-- Membership of `a` in the strict base chain of `d` ("a is a transitive base
of d"). This is a specification-side notion used to state unrelatedness. -/
def isTransitiveBaseOf (a : Exc) : Exc → Bool
  | .root _ => false
  | .derived _ base => decide (a = base) || isTransitiveBaseOf a base

/-- The exception together with its whole base chain, nearest first. -/
def excChain : Exc → List Exc
  | .root id => [.root id]
  | .derived id base => .derived id base :: excChain base

/-! ## Operations, doc comments, and the operation validators -/

/-- The single-quote character, used in diagnostic message texts. -/
def q : String := "\x27"

/-- A parameter or return member of an operation (only the identifier matters
for the embedded validators). -/
structure Parameter where
  identifier : String
deriving DecidableEq, Repr

/-- One entry of an operation exception specification: a `TypeRef<Exception>`
with its resolved definition and source span. -/
structure ExceptionRef where
  definition : Exc
  span : Span
deriving DecidableEq, Repr

/-- A `@param` doc-comment tag. -/
structure ParamTag where
  identifier : String
  span : Span
deriving DecidableEq, Repr

/-- A `@returns` doc-comment tag: optional identifier, tag span, message span. -/
structure ReturnsTag where
  identifier : Option String
  span : Span
  message_span : Span
deriving DecidableEq, Repr

instance {ε α : Type} [DecidableEq ε] [DecidableEq α] : DecidableEq (Except ε α) := fun x y =>
  match x, y with
  | .ok a, .ok b => decidable_of_iff (a = b) (by simp)
  | .ok _, .error _ => isFalse (by simp)
  | .error _, .ok _ => isFalse (by simp)
  | .error a, .error b => decidable_of_iff (a = b) (by simp)

/-- A `@throws` doc-comment tag; `thrown_type` is the `Result` of resolving the
named exception type (`Err` when unresolved). -/
structure ThrowsTag where
  thrown_type : Except Unit Exc
  span : Span
  message_span : Span
deriving DecidableEq, Repr

/-- A parsed doc comment: its `@param`, `@returns` and `@throws` tags. -/
structure DocComment where
  params : List ParamTag
  returns : List ReturnsTag
  throws : List ThrowsTag
deriving DecidableEq, Repr

/-- An operation, with the fields consulted by the validators in
`src/validators/operations.rs`. -/
structure Operation where
  identifier : String
  parser_scoped_identifier : String
  span : Span
  encoding : CompilationMode
  exception_specification : List ExceptionRef
  parameters : List Parameter
  return_members : List Parameter
  comment : Option DocComment
deriving DecidableEq, Repr

/-- Embedding of `exception_specifications_can_only_be_used_in_slice1_mode`:
when the operation is not compiled in Slice1 mode and its exception
specification is non-empty, push one `Error::ExceptionSpecificationNotSupported`
whose span covers the entire exception specification. -/
def exception_specifications_can_only_be_used_in_slice1_mode (operation : Operation) : List Diagnostic :=
  match operation.exception_specification with
  | [] => []
  | first :: rest =>
    if operation.encoding ≠ CompilationMode.slice1 then
      let lastEntry := (first :: rest).getLast (List.cons_ne_nil _ _)
      [{ kind := .errorExceptionSpecificationNotSupported
         span := some { startPos := first.span.startPos, endPos := lastEntry.span.endPos }
         scope := some operation.parser_scoped_identifier
         notes := [] }]
    else
      []

/-- Embedding of `validate_param_tags`: a lint for every `@param` tag whose
identifier names no parameter of the operation. -/
def validate_param_tags (comment : DocComment) (operation : Operation) : List Diagnostic :=
  let parameters := operation.parameters.map Parameter.identifier
  comment.params.filterMap fun param_tag =>
    if parameters.contains param_tag.identifier then
      none
    else
      some
        { kind := .lintIncorrectDocComment
            ("comment has a " ++ q ++ "param" ++ q ++ " tag for " ++ q ++ param_tag.identifier ++ q ++
              ", but operation " ++ q ++ operation.identifier ++ q ++ " has no parameter with that name")
          span := some param_tag.span
          scope := some operation.parser_scoped_identifier
          notes := [] }

/-- Embedding of `validate_returns_tags_for_operation_with_no_return_type`:
every `@returns` tag is a lint when the operation returns nothing. -/
def validate_returns_tags_for_operation_with_no_return_type
    (returns_tags : List ReturnsTag) (operation : Operation) : List Diagnostic :=
  returns_tags.map fun returns_tag =>
    { kind := .lintIncorrectDocComment
        ("comment has a " ++ q ++ "returns" ++ q ++ " tag, but operation " ++ q ++
          operation.identifier ++ q ++ " does not return anything")
      span := some (Span.add returns_tag.span returns_tag.message_span)
      scope := some operation.parser_scoped_identifier
      notes := [] }

/-- Embedding of `validate_returns_tags_for_operation_with_single_return`:
a `@returns` tag is a lint exactly when it carries an identifier. -/
def validate_returns_tags_for_operation_with_single_return
    (returns_tags : List ReturnsTag) (operation : Operation) : List Diagnostic :=
  returns_tags.filterMap fun returns_tag =>
    match returns_tag.identifier with
    | some tag_identifier =>
      some
        { kind := .lintIncorrectDocComment
            ("comment has a " ++ q ++ "returns" ++ q ++ " tag for " ++ q ++ tag_identifier ++ q ++
              ", but operation " ++ q ++ operation.identifier ++ q ++
              " doesn" ++ q ++ "t return anything with that name")
          span := some returns_tag.span
          scope := some operation.parser_scoped_identifier
          notes :=
            [ { message := "operation " ++ q ++ operation.identifier ++ q ++ " returns a single unnamed type"
                span := some operation.span },
              { message := "try removing the identifier from your comment: \"@returns: ...\""
                span := none } ] }
    | none => none

/-- Embedding of `validate_returns_tags_for_operation_with_return_tuple`:
a `@returns` tag with an identifier is a lint exactly when the identifier
matches no member of the return tuple. -/
def validate_returns_tags_for_operation_with_return_tuple
    (returns_tags : List ReturnsTag) (operation : Operation) (return_tuple : List Parameter) :
    List Diagnostic :=
  let return_members := return_tuple.map Parameter.identifier
  returns_tags.filterMap fun returns_tag =>
    match returns_tag.identifier with
    | some tag_identifier =>
      if return_members.contains tag_identifier then
        none
      else
        some
          { kind := .lintIncorrectDocComment
              ("comment has a " ++ q ++ "returns" ++ q ++ " tag for " ++ q ++ tag_identifier ++ q ++
                ", but operation " ++ q ++ operation.identifier ++ q ++
                " doesn" ++ q ++ "t return anything with that name")
            span := some returns_tag.span
            scope := some operation.parser_scoped_identifier
            notes := [] }
    | none => none

/-- Embedding of `validate_returns_tags`: dispatch on the arity of the
operation's return members. -/
def validate_returns_tags (comment : DocComment) (operation : Operation) : List Diagnostic :=
  let returns_tags := comment.returns
  match operation.return_members with
  | [] => validate_returns_tags_for_operation_with_no_return_type returns_tags operation
  | [_] => validate_returns_tags_for_operation_with_single_return returns_tags operation
  | tuple => validate_returns_tags_for_operation_with_return_tuple returns_tags operation tuple

/-- Embedding of `validate_throws_tags_for_operation_with_no_throws_clause`:
every `@throws` tag is a lint when the operation throws nothing. -/
def validate_throws_tags_for_operation_with_no_throws_clause
    (throws_tags : List ThrowsTag) (operation : Operation) : List Diagnostic :=
  throws_tags.map fun throws_tag =>
    { kind := .lintIncorrectDocComment
        ("comment has a " ++ q ++ "throws" ++ q ++ " tag, but operation " ++ q ++
          operation.identifier ++ q ++ " does not throw anything")
      span := some (Span.add throws_tag.span throws_tag.message_span)
      scope := some operation.parser_scoped_identifier
      notes := [] }

/-- Embedding of `validate_throws_tags_for_operation_with_throws_clause`:
a resolved `@throws` tag is a lint exactly when its exception is compatible
with none of the declared thrown exceptions. -/
def validate_throws_tags_for_operation_with_throws_clause
    (throws_tags : List ThrowsTag) (operation : Operation) (exception_types : List ExceptionRef) :
    List Diagnostic :=
  throws_tags.filterMap fun throws_tag =>
    match throws_tag.thrown_type with
    | .ok documented_exception =>
      let is_correct := exception_types.any fun thrown_exception =>
        is_documented_exception_compatible thrown_exception.definition documented_exception
      if is_correct then
        none
      else
        some
          { kind := .lintIncorrectDocComment
              ("comment has a " ++ q ++ "throws" ++ q ++ " tag for " ++ q ++
                documented_exception.identifier ++ q ++ ", but operation " ++ q ++
                operation.identifier ++ q ++ " doesn" ++ q ++ "t throw this exception")
            span := some throws_tag.span
            scope := some operation.parser_scoped_identifier
            notes := [] }
    | .error _ => none

/-- Embedding of `validate_throws_tags`: dispatch on whether the operation's
exception specification is empty. -/
def validate_throws_tags (comment : DocComment) (operation : Operation) : List Diagnostic :=
  let throws_tags := comment.throws
  if operation.exception_specification.isEmpty then
    validate_throws_tags_for_operation_with_no_throws_clause throws_tags operation
  else
    validate_throws_tags_for_operation_with_throws_clause throws_tags operation
      operation.exception_specification

/-- Embedding of `validate_operation`: run the exception-specification check
and, when a doc comment is present, the three tag validators. -/
def validate_operation (operation : Operation) : List Diagnostic :=
  exception_specifications_can_only_be_used_in_slice1_mode operation ++
    match operation.comment with
    | some comment =>
      validate_param_tags comment operation ++
        validate_returns_tags comment operation ++
        validate_throws_tags comment operation
    | none => []

/-! ## The C# class visitor: constructors and the wire-slicing protocol

`Class` in Rust carries `base: Option<Class>`; we use the isomorphic
two-constructor form (`rootClass` has no base). Members carry their identifier
and whether `is_member_default_initialized` holds for them. -/

/-- A class data member: identifier and default-initialization status. -/
structure Member where
  identifier : String
  default_init : Bool
deriving DecidableEq, Repr

/-- A class with its single-inheritance chain of members. -/
inductive ClassDef where
  | rootClass (type_id : String) (members : List Member)
  | derivedClass (type_id : String) (members : List Member) (base : ClassDef)
deriving DecidableEq, Repr

/-- The class's own (declared) members, in declaration order. -/
def ClassDef.members : ClassDef → List Member
  | .rootClass _ members => members
  | .derivedClass _ members _ => members

/-- The `base(ast)` accessor: `Some` base class or `None`. -/
def ClassDef.base : ClassDef → Option ClassDef
  | .rootClass _ _ => none
  | .derivedClass _ _ b => some b

/-- The class's type-id string. -/
def ClassDef.type_id : ClassDef → String
  | .rootClass t _ => t
  | .derivedClass t _ _ => t

/-- Embedding of `all_data_members`: every member of the inheritance chain in
base-to-derived order. -/
def ClassDef.all_data_members : ClassDef → List Member
  | .rootClass _ members => members
  | .derivedClass _ members b => b.all_data_members ++ members

/-- A generated constructor, abstracted to its parameter list (parameter names
in order). -/
structure Constructor where
  parameters : List String
deriving DecidableEq, Repr

/-- Embedding of `primary_constructors` from `slicec-cs/src/class_visitor.rs`:
with no members anywhere in the chain, a single parameterless constructor;
otherwise the one-shot constructor over all chain members, plus a second
constructor over the non-default-initialized members when that is a strict
subset. -/
def primary_constructors (class_def : ClassDef) : List Constructor :=
  let all_members := class_def.all_data_members
  let all_mandatory_members := all_members.filter fun m => !m.default_init
  if all_members.isEmpty then
    [{ parameters := [] }]
  else
    let one_shot : Constructor := { parameters := all_members.map Member.identifier }
    if all_mandatory_members.length < all_members.length then
      [one_shot, { parameters := all_mandatory_members.map Member.identifier }]
    else
      [one_shot]

/-- A wire event performed by the generated `IceEncode` body. Both the
start-slice and end-slice calls may or may not carry a last-slice flag
argument, so the flag is an `Option Bool` on each. -/
inductive EncodeEvent where
  | startSlice (type_id : String) (last_flag : Option Bool)
  | encodeMember (identifier : String)
  | endSlice (last_flag : Option Bool)
deriving DecidableEq, Repr

/-- A wire event performed by the generated `IceDecode` body. -/
inductive DecodeEvent where
  | startSlice
  | decodeMember (identifier : String)
  | endSlice
deriving DecidableEq, Repr

/-- Trace of the generated `IceEncode` body from `encode_and_decode`:
`encoder.IceStartSlice(IceTypeId)` (the compact-id argument is never pushed,
`compact_id` being hard-coded to `-1`), this level's members in declaration
order, then either `IceEndSlice(false)` followed by `base.IceEncode(encoder)`,
or `IceEndSlice(true)` when there is no base class. -/
def iceEncode : ClassDef → List EncodeEvent
  | .rootClass type_id members =>
    EncodeEvent.startSlice type_id none ::
      (members.map fun m => EncodeEvent.encodeMember m.identifier) ++
        [EncodeEvent.endSlice (some true)]
  | .derivedClass type_id members base =>
    EncodeEvent.startSlice type_id none ::
      (members.map fun m => EncodeEvent.encodeMember m.identifier) ++
        [EncodeEvent.endSlice (some false)] ++ iceEncode base

/-- Trace of the generated `IceDecode` body from `encode_and_decode`:
`decoder.IceStartSlice()`, this level's members, `decoder.IceEndSlice()`
(no flag argument), then `base.IceDecode(decoder)` when a base class exists. -/
def iceDecode : ClassDef → List DecodeEvent
  | .rootClass _ members =>
    DecodeEvent.startSlice ::
      (members.map fun m => DecodeEvent.decodeMember m.identifier) ++ [DecodeEvent.endSlice]
  | .derivedClass _ members base =>
    DecodeEvent.startSlice ::
      (members.map fun m => DecodeEvent.decodeMember m.identifier) ++ [DecodeEvent.endSlice] ++
        iceDecode base

/-- The inheritance chain as a list of (type-id, own members) levels,
most-derived level first. -/
def ClassDef.chain : ClassDef → List (String × List Member)
  | .rootClass t members => [(t, members)]
  | .derivedClass t members b => (t, members) :: b.chain

/-- One encoded slice as the generated code produces it: a start-slice carrying
only the type-id, the level's members, and an end-slice carrying the
last-slice flag. -/
def encodeSliceBlock (type_id : String) (members : List Member) (is_last : Bool) :
    List EncodeEvent :=
  EncodeEvent.startSlice type_id none ::
    (members.map fun m => EncodeEvent.encodeMember m.identifier) ++
      [EncodeEvent.endSlice (some is_last)]

/-- Slice-per-level encode trace over a chain, with only the final (root)
level's end-slice flagged as last. -/
def encodeSliceSeq : List (String × List Member) → List EncodeEvent
  | [] => []
  | [(t, members)] => encodeSliceBlock t members true
  | (t, members) :: level :: rest => encodeSliceBlock t members false ++ encodeSliceSeq (level :: rest)

/-- One decoded slice: start-slice, the level's members, end-slice (no flag). -/
def decodeSliceBlock (members : List Member) : List DecodeEvent :=
  DecodeEvent.startSlice ::
    (members.map fun m => DecodeEvent.decodeMember m.identifier) ++ [DecodeEvent.endSlice]

/-- Slice-per-level decode trace over a chain. -/
def decodeSliceSeq : List (String × List Member) → List DecodeEvent
  | [] => []
  | (_, members) :: rest => decodeSliceBlock members ++ decodeSliceSeq rest

/-- Encode trace following the claim text word for word: each slice is a
start-slice carrying the type-id plus a last-slice flag, the level's members,
then an end-slice (with no flag of its own). -/
def claimed_encode_trace : ClassDef → List EncodeEvent
  | .rootClass type_id members =>
    EncodeEvent.startSlice type_id (some true) ::
      (members.map fun m => EncodeEvent.encodeMember m.identifier) ++ [EncodeEvent.endSlice none]
  | .derivedClass type_id members base =>
    EncodeEvent.startSlice type_id (some false) ::
      (members.map fun m => EncodeEvent.encodeMember m.identifier) ++ [EncodeEvent.endSlice none] ++
        claimed_encode_trace base

/-! ## The encoded-result struct generator -/

/-- Embedding of the `create_payload_method` selection in
`encoded_result_struct` (`slicec-cs/src/encoded_result.rs`): the single-value
path for exactly one return member, the tuple path otherwise. -/
def create_payload_method (parameters : List Parameter) : String :=
  match parameters with
  | [_] => "CreatePayloadFromSingleReturnValue"
  | _ => "CreatePayloadFromReturnValueTuple"

/-- Embedding of the encoding selection in `encoded_result_struct`: the Ice 1.1
(Slice1) encoding whenever the return value can contain classes, otherwise the
encoding obtained from the dispatch parameter. -/
def create_payload_encoding (returns_classes : Bool) (dispatch_parameter : String) : String :=
  match returns_classes with
  | true => "Ice11Encoding"
  | false => dispatch_parameter ++ ".GetIceEncoding()"

/-- Embedding of the full `create_payload` expression assembled by
`encoded_result_struct`; `response_encode_action` and `format_type` are strings
produced by collaborators outside the embedded sources and are taken as
arguments. -/
def create_payload (parameters : List Parameter) (returns_classes : Bool)
    (dispatch_parameter response_encode_action format_type : String) : String :=
  let return_value_arg :=
    match parameters.length with
    | 1 => "returnValue"
    | _ => "(" ++ String.intercalate ", " (parameters.map Parameter.identifier) ++ ")"
  let payload_args := [return_value_arg, response_encode_action]
  let payload_args := if returns_classes then payload_args ++ [format_type] else payload_args
  create_payload_encoding returns_classes dispatch_parameter ++ "." ++
    create_payload_method parameters ++ "(" ++ String.intercalate ", " payload_args ++ ")"

/-! ## CustomType and its memoized supported-encodings field -/

/-- The set of encodings a type supports (a wrapper over the listed modes). -/
structure SupportedEncodings where
  encodings : List CompilationMode
deriving DecidableEq, Repr

/-- A custom (opaque) type: its supported-encodings field is `None` until the
validation pass populates it. -/
structure CustomType where
  identifier : String
  supported_encodings : Option SupportedEncodings
deriving DecidableEq, Repr

/-- Embedding of `CustomType::supported_encodings`, whose body is
`self.supported_encodings.clone().unwrap()`: the panicking `unwrap` on `None`
is modelled as an `Except.error`. -/
def CustomType.supported_encodings_call (c : CustomType) : Except String SupportedEncodings :=
  match c.supported_encodings with
  | some encodings => Except.ok encodings
  | none => Except.error "called Option::unwrap on a None value"

/-! ## File discovery and resolution (`src/utils/file_util.rs`)

The file system visible to discovery is modelled as a tree: a supplied path is
either a file (with its optional extension), a readable directory with
children, a directory whose `read_dir` fails, or a path that does not exist.
Canonicalization and file reading are external effects, passed in as
functions. -/

/-- A file-system entry as seen by file discovery. -/
inductive FsEntry where
  | file (path : String) (extension : Option String)
  | dir (path : String) (children : List FsEntry)
  | unreadableDir (path : String)
  | missing (path : String)

/-- The textual path of an entry. -/
def FsEntry.path : FsEntry → String
  | .file p _ => p
  | .dir p _ => p
  | .unreadableDir p => p
  | .missing p => p

/-- The `exists()` check: everything but a missing path exists. -/
def FsEntry.pathExists : FsEntry → Bool
  | .missing _ => false
  | _ => true

/-- The `is_file()` check. -/
def FsEntry.is_file : FsEntry → Bool
  | .file _ _ => true
  | _ => false

/-- The `is_dir()` check. -/
def FsEntry.is_dir : FsEntry → Bool
  | .dir _ _ => true
  | .unreadableDir _ => true
  | _ => false

/-- Embedding of `is_slice_file`: true when the path has exactly the `slice`
extension (directories and missing paths have no extension here). -/
def FsEntry.is_slice_file : FsEntry → Bool
  | .file _ ext => decide (ext = some "slice")
  | _ => false

/-- A diagnostic-free helper building the `Error::IO` diagnostic pushed by the
file-discovery functions (no span, no scope, no notes). -/
def ioDiagnostic (path : String) (error : String) : Diagnostic :=
  { kind := .errorIo "read" path error, span := none, scope := none, notes := [] }

mutual

/-- Embedding of `find_slice_files_in_path`: recurse into directories, keep
files with the `slice` extension, silently ignore everything else; a failing
`read_dir` becomes one `Error::IO` diagnostic. -/
def find_slice_files_in_path : FsEntry → List String × List Diagnostic
  | .dir _ children => find_slice_files_in_directory children
  | .unreadableDir p => ([], [ioDiagnostic p "could not read directory"])
  | .file p ext => if FsEntry.is_slice_file (.file p ext) then ([p], []) else ([], [])
  | .missing _ => ([], [])

/-- Embedding of the iteration in `find_slice_files_in_directory`. -/
def find_slice_files_in_directory : List FsEntry → List String × List Diagnostic
  | [] => ([], [])
  | child :: rest =>
    let found := find_slice_files_in_path child
    let found_rest := find_slice_files_in_directory rest
    (found.1 ++ found_rest.1, found.2 ++ found_rest.2)

end

/-- A discovered path paired with its canonical form (the `FilePath` wrapper;
hashing and equality use only `canonicalized_path`). -/
structure FilePath where
  path : String
  canonicalized_path : String
deriving DecidableEq, Repr

/-- Per-path body of the first loop of `find_slice_files`: a missing path, a
non-`.slice` file, or a directory where none is allowed each produce one
`Error::IO` diagnostic and no paths; anything else is handed to
`find_slice_files_in_path`. -/
def find_slice_files_step (allow_directories : Bool) (path : FsEntry) :
    List String × List Diagnostic :=
  if !path.pathExists then
    ([], [ioDiagnostic path.path "entity not found"])
  else if path.is_file && !path.is_slice_file then
    ([], [ioDiagnostic path.path ("Slice files must end with a " ++ q ++ ".slice" ++ q ++ " extension")])
  else if path.is_dir && !allow_directories then
    ([], [ioDiagnostic path.path "Excepted a Slice file but found a directory."])
  else
    find_slice_files_in_path path

/-- Embedding of `find_slice_files`: run the per-path step over every supplied
path, then canonicalize each discovered path (`FilePath::try_from`), turning
canonicalization failures into `Error::IO` diagnostics. -/
def find_slice_files (paths : List FsEntry) (allow_directories : Bool)
    (canonicalize : String → Option String) : List FilePath × List Diagnostic :=
  let gathered := paths.map (find_slice_files_step allow_directories)
  let slice_paths := (gathered.map Prod.fst).flatten
  let diags := (gathered.map Prod.snd).flatten
  let file_paths := slice_paths.filterMap fun p =>
    match canonicalize p with
    | some cp => some { path := p, canonicalized_path := cp }
    | none => none
  let canon_diags := slice_paths.filterMap fun p =>
    match canonicalize p with
    | some _ => none
    | none => some (ioDiagnostic p "No such file or directory")
  (file_paths, diags ++ canon_diags)

/-- One resolved compilation unit (`SliceFile::new(path, raw_text, is_source)`). -/
structure SliceFile where
  path : String
  raw_text : String
  is_source : Bool
deriving DecidableEq, Repr

/-- The source and reference path lists of `SliceOptions`. -/
structure SliceOptions where
  sources : List FsEntry
  references : List FsEntry

/-- `HashMap::insert` keyed on the canonical path: replaces the value (but not
the stored key) and returns the previous value when the key was present. -/
def insertFilePath : List (FilePath × Bool) → FilePath → Bool →
    List (FilePath × Bool) × Option Bool
  | [], fp, v => ([(fp, v)], none)
  | (k, old_value) :: rest, fp, v =>
    if k.canonicalized_path = fp.canonicalized_path then
      ((k, v) :: rest, some old_value)
    else
      let inserted := insertFilePath rest fp v
      ((k, old_value) :: inserted.1, inserted.2)

/-- The reference-file loop of `resolve_files_from`: insert each reference with
`is_source = false`, emitting one `Lint::DuplicateFile` whenever the insert
displaced an existing entry. -/
def insert_reference_files : List (FilePath × Bool) → List FilePath →
    List (FilePath × Bool) × List Diagnostic
  | map, [] => (map, [])
  | map, reference_file :: rest =>
    let inserted := insertFilePath map reference_file false
    let dup : List Diagnostic :=
      match inserted.2 with
      | some _ =>
        [{ kind := .lintDuplicateFile reference_file.path, span := none, scope := none, notes := [] }]
      | none => []
    let recursed := insert_reference_files inserted.1 rest
    (recursed.1, dup ++ recursed.2)

/-- The source-file loop of `resolve_files_from`: insert each source with
`is_source = true`, emitting one `Lint::DuplicateFile` only when the displaced
entry was itself a source (replacing a reference is silent). -/
def insert_source_files : List (FilePath × Bool) → List FilePath →
    List (FilePath × Bool) × List Diagnostic
  | map, [] => (map, [])
  | map, source_file :: rest =>
    let inserted := insertFilePath map source_file true
    let dup : List Diagnostic :=
      match inserted.2 with
      | some true =>
        [{ kind := .lintDuplicateFile source_file.path, span := none, scope := none, notes := [] }]
      | _ => []
    let recursed := insert_source_files inserted.1 rest
    (recursed.1, dup ++ recursed.2)

/-- The read loop of `resolve_files_from`: read each resolved path into a
`SliceFile`, turning read failures into `Error::IO` diagnostics. -/
def read_files : List (FilePath × Bool) → (String → Option String) →
    List SliceFile × List Diagnostic
  | [], _ => ([], [])
  | (file_path, is_source) :: rest, read_to_string =>
    let recursed := read_files rest read_to_string
    match read_to_string file_path.path with
    | some raw_text =>
      ({ path := file_path.path, raw_text := raw_text, is_source := is_source } :: recursed.1,
        recursed.2)
    | none => (recursed.1, ioDiagnostic file_path.path "could not read file" :: recursed.2)

/-- Embedding of `resolve_files_from`: discover references, fold them into the
map, discover sources, fold them in (sources overwrite references), then read
every surviving entry. Diagnostics are returned in push order. -/
def resolve_files_from (options : SliceOptions) (canonicalize : String → Option String)
    (read_to_string : String → Option String) : List SliceFile × List Diagnostic :=
  let found_references := find_slice_files options.references true canonicalize
  let after_references := insert_reference_files [] found_references.1
  let found_sources := find_slice_files options.sources false canonicalize
  let after_sources := insert_source_files after_references.1 found_sources.1
  let result := read_files after_sources.1 read_to_string
  (result.1,
    found_references.2 ++ after_references.2 ++ found_sources.2 ++ after_sources.2 ++ result.2)

/-! ## Specification-side predicates and concrete example inputs -/

/-- The `@returns` tags the validator flags, stated from the claim: every tag
when there are no return members; tags carrying an identifier when there is
exactly one return member; tags whose identifier matches no named return
member when there are two or more. -/
def shouldFlagReturnsTag (return_members : List Parameter) (tag : ReturnsTag) : Bool :=
  match return_members with
  | [] => true
  | [_] => tag.identifier.isSome
  | tuple =>
    match tag.identifier with
    | some id => !((tuple.map Parameter.identifier).contains id)
    | none => false

/-- The `@throws` tags the validator flags, stated from the amended claim:
every tag when the throws clause is empty; otherwise each resolved tag whose
documented exception neither equals nor derives from (has as a transitive
base) any declared thrown exception. -/
def shouldFlagThrowsTag (exception_specification : List ExceptionRef) (tag : ThrowsTag) : Bool :=
  if exception_specification.isEmpty then
    true
  else
    match tag.thrown_type with
    | .ok documented =>
      !(exception_specification.any fun thrown =>
          decide (documented = thrown.definition) || isTransitiveBaseOf thrown.definition documented)
    | .error _ => false

/-- A Slice2-mode operation with a two-entry exception specification. -/
def c1ExampleOperation : Operation :=
  { identifier := "op"
    parser_scoped_identifier := "Test::I::op"
    span := { startPos := 0, endPos := 2 }
    encoding := .slice2
    exception_specification :=
      [ { definition := .root "E1", span := { startPos := 10, endPos := 12 } },
        { definition := .root "E2", span := { startPos := 14, endPos := 16 } } ]
    parameters := []
    return_members := []
    comment := none }

/-- A base class with one member and no base of its own. -/
def c2ExampleClass : ClassDef := .rootClass "::Test::C" [{ identifier := "a", default_init := false }]

/-- A baseless exception `E2`. -/
def c4E2 : Exc := .root "E2"

/-- An exception `E1` derived from `E2`. -/
def c4E1 : Exc := .derived "E1" c4E2

/-- A doc comment whose only tag is `@throws E1`. -/
def c4ExampleComment : DocComment :=
  { params := []
    returns := []
    throws :=
      [ { thrown_type := .ok c4E1
          span := { startPos := 20, endPos := 22 }
          message_span := { startPos := 23, endPos := 30 } } ] }

/-- A Slice1-mode operation declared with `throws E2` and documented with
`@throws E1` (where `E1` derives from `E2`). -/
def c4ExampleOperation : Operation :=
  { identifier := "op"
    parser_scoped_identifier := "Test::I::op"
    span := { startPos := 0, endPos := 2 }
    encoding := .slice1
    exception_specification := [{ definition := c4E2, span := { startPos := 10, endPos := 12 } }]
    parameters := []
    return_members := []
    comment := some c4ExampleComment }

/-- A doc comment whose only tag is `@throws E3`, with `E3` unrelated to the
declared exceptions. -/
def c4WitnessComment : DocComment :=
  { params := []
    returns := []
    throws :=
      [ { thrown_type := .ok (.root "E3")
          span := { startPos := 20, endPos := 22 }
          message_span := { startPos := 23, endPos := 30 } } ] }

/-- An operation declared with `throws E2` and documented with `@throws E3`
for an exception unrelated to `E2`. -/
def c4WitnessOperation : Operation :=
  { c4ExampleOperation with comment := some c4WitnessComment }

/-- The lint expected for the unrelated `@throws E3` tag. -/
def c4WitnessDiagnostic : Diagnostic :=
  { kind := .lintIncorrectDocComment
      ("comment has a " ++ q ++ "throws" ++ q ++ " tag for " ++ q ++ "E3" ++ q ++
        ", but operation " ++ q ++ "op" ++ q ++ " doesn" ++ q ++ "t throw this exception")
    span := some { startPos := 20, endPos := 22 }
    scope := some "Test::I::op"
    notes := [] }

/-- A doc comment with one `@returns` tag matching the return member `a` and
one for the unknown name `z`. -/
def c5WitnessComment : DocComment :=
  { params := []
    returns :=
      [ { identifier := some "a"
          span := { startPos := 5, endPos := 6 }
          message_span := { startPos := 7, endPos := 8 } },
        { identifier := some "z"
          span := { startPos := 9, endPos := 10 }
          message_span := { startPos := 11, endPos := 12 } } ]
    throws := [] }

/-- An operation returning the named tuple `(a, b)`, documented by
`c5WitnessComment`. -/
def c5WitnessOperation : Operation :=
  { identifier := "op"
    parser_scoped_identifier := "Test::I::op"
    span := { startPos := 0, endPos := 2 }
    encoding := .slice2
    exception_specification := []
    parameters := []
    return_members := [{ identifier := "a" }, { identifier := "b" }]
    comment := some c5WitnessComment }

/-- The lint expected for the `@returns` tag naming the unknown member `z`. -/
def c5WitnessDiagnostic : Diagnostic :=
  { kind := .lintIncorrectDocComment
      ("comment has a " ++ q ++ "returns" ++ q ++ " tag for " ++ q ++ "z" ++ q ++
        ", but operation " ++ q ++ "op" ++ q ++ " doesn" ++ q ++ "t return anything with that name")
    span := some { startPos := 9, endPos := 10 }
    scope := some "Test::I::op"
    notes := [] }

/-! ## Helper lemmas -/

/-- A `filterMap` whose success is characterized by a Boolean predicate yields
as many elements as the corresponding `filter`. -/
theorem length_filterMap_eq_length_filter {α β : Type} (f : α → Option β) (p : α → Bool)
    (l : List α) (h : ∀ a, (f a).isSome = p a) :
    (l.filterMap f).length = (l.filter p).length := by
  induction l with
  | nil => rfl
  | cons x xs ih =>
    have hx := h x
    cases hfx : f x with
    | none =>
      rw [hfx] at hx
      simp only [Option.isSome_none] at hx
      simp [List.filterMap_cons, hfx, List.filter_cons, ← hx, ih]
    | some b =>
      rw [hfx] at hx
      simp only [Option.isSome_some] at hx
      simp [List.filterMap_cons, hfx, List.filter_cons, ← hx, ih]

/-- Compatibility is membership in the documented exception's chain. -/
theorem compat_iff_mem (t d : Exc) :
    is_documented_exception_compatible t d = true ↔ t ∈ excChain d := by
  induction d with
  | root id =>
    by_cases h : t = Exc.root id <;>
      simp [is_documented_exception_compatible, excChain, h]
  | derived id base ih =>
    by_cases h : t = Exc.derived id base <;>
      simp [is_documented_exception_compatible, excChain, h, ih]

/-- Chains are closed under taking chains of members. -/
theorem excChain_subset {b c : Exc} (h : b ∈ excChain c) : ∀ a ∈ excChain b, a ∈ excChain c := by
  induction c with
  | root id =>
    simp [excChain] at h
    subst h
    intro a ha
    exact ha
  | derived id base ih =>
    simp only [excChain, List.mem_cons] at h
    rcases h with h | h
    · subst h
      intro a ha
      exact ha
    · intro a ha
      simp only [excChain, List.mem_cons]
      right
      exact ih h a ha

/-- Chain membership is equality or transitive base membership. -/
theorem mem_excChain_iff (t d : Exc) :
    t ∈ excChain d ↔ t = d ∨ isTransitiveBaseOf t d = true := by
  induction d with
  | root id => simp [excChain, isTransitiveBaseOf]
  | derived id base ih =>
    simp only [excChain, List.mem_cons, isTransitiveBaseOf, Bool.or_eq_true, decide_eq_true_eq, ih]

/-- The code's compatibility test, rewritten as the amended claim's Boolean:
the documented exception equals, or has among its transitive bases, the thrown
exception. -/
theorem compat_eq_claim (t d : Exc) :
    is_documented_exception_compatible t d = (decide (d = t) || isTransitiveBaseOf t d) := by
  rcases hb : is_documented_exception_compatible t d with _ | _
  · have hmem : t ∉ excChain d := by
      rw [← compat_iff_mem, hb]
      simp
    rw [mem_excChain_iff] at hmem
    push_neg at hmem
    obtain ⟨h1, h2⟩ := hmem
    have h2' : isTransitiveBaseOf t d = false := by
      cases h3 : isTransitiveBaseOf t d
      · rfl
      · exact absurd h3 h2
    have h1' : decide (d = t) = false := by
      simp only [decide_eq_false_iff_not]
      intro h
      exact h1 h.symm
    rw [h1', h2']
    rfl
  · have hmem : t ∈ excChain d := (compat_iff_mem t d).mp hb
    rw [mem_excChain_iff] at hmem
    rcases hmem with h | h
    · simp [h]
    · simp [h]

/-! ## Claim C3 -/

/-- Claim C3: `is_documented_exception_compatible` satisfies its defining
equation `is_compatible(thrown, documented) = (thrown == documented) OR
is_compatible(thrown, documented.base)` (false when the recursion reaches a
baseless exception without a match), is reflexive, is transitive along the
base chain, and is false when the documented exception is unrelated to the
thrown one. -/
theorem is_documented_exception_compatible_spec :
    (∀ thrown documented : Exc,
        is_documented_exception_compatible thrown documented =
          (decide (thrown = documented) ||
            match documented.base_exception with
            | some base => is_documented_exception_compatible thrown base
            | none => false))
    ∧ (∀ e : Exc, is_documented_exception_compatible e e = true)
    ∧ (∀ e1 e2 e3 : Exc,
        is_documented_exception_compatible e1 e2 = true →
        is_documented_exception_compatible e2 e3 = true →
        is_documented_exception_compatible e1 e3 = true)
    ∧ (∀ thrown documented : Exc,
        thrown ≠ documented → isTransitiveBaseOf thrown documented = false →
        is_documented_exception_compatible thrown documented = false) := by
  refine ⟨?_, ?_, ?_, ?_⟩
  · intro thrown documented
    cases documented with
    | root id =>
      by_cases h : thrown = Exc.root id <;>
        simp [is_documented_exception_compatible, Exc.base_exception, h]
    | derived id base =>
      by_cases h : thrown = Exc.derived id base <;>
        simp [is_documented_exception_compatible, Exc.base_exception, h]
  · intro e
    cases e <;> simp [is_documented_exception_compatible]
  · intro e1 e2 e3 h12 h23
    rw [compat_iff_mem] at h12 h23 ⊢
    exact excChain_subset h23 e1 h12
  · intro thrown documented hne htb
    rcases hb : is_documented_exception_compatible thrown documented with _ | _
    · rfl
    · exfalso
      have : thrown ∈ excChain documented := (compat_iff_mem _ _).mp hb
      rw [mem_excChain_iff] at this
      rcases this with h | h
      · exact hne h
      · rw [htb] at h
        exact Bool.false_ne_true h

/-- Witness for C3: transitivity applied along the concrete chain
`C <- B <- A`, and unrelatedness of two distinct baseless exceptions. -/
theorem is_documented_exception_compatible_spec_witness :
    is_documented_exception_compatible (.root "A") (.derived "C" (.derived "B" (.root "A"))) = true
    ∧ is_documented_exception_compatible (.root "A") (.root "Z") = false :=
  ⟨is_documented_exception_compatible_spec.2.2.1 (.root "A") (.derived "B" (.root "A"))
      (.derived "C" (.derived "B" (.root "A"))) (by decide) (by decide),
    is_documented_exception_compatible_spec.2.2.2 (.root "A") (.root "Z") (by decide) (by decide)⟩

/-! ## Claim C1 -/

/-- Claim C1 (amended): for every operation compiled in a mode other than
Slice1 whose exception specification is non-empty, the validator reports
exactly one `ExceptionSpecificationNotSupported` error whose span covers the
entire exception specification (first entry's start to last entry's end),
scoped to the operation, and carrying no notes. -/
theorem exception_specification_validator_amended
    (operation : Operation) (first : ExceptionRef) (rest : List ExceptionRef)
    (hspec : operation.exception_specification = first :: rest)
    (hmode : operation.encoding ≠ CompilationMode.slice1) :
    exception_specifications_can_only_be_used_in_slice1_mode operation =
      [{ kind := .errorExceptionSpecificationNotSupported
         span := some { startPos := first.span.startPos
                        endPos := ((first :: rest).getLast (List.cons_ne_nil _ _)).span.endPos }
         scope := some operation.parser_scoped_identifier
         notes := [] }] := by
  unfold exception_specifications_can_only_be_used_in_slice1_mode
  rw [hspec]
  simp [hmode]

/-- Witness for C1 (amended): the Slice2 operation with a two-entry exception
specification yields the single spanning error. -/
theorem exception_specification_validator_amended_witness :
    exception_specifications_can_only_be_used_in_slice1_mode c1ExampleOperation =
      [{ kind := .errorExceptionSpecificationNotSupported
         span := some { startPos := 10, endPos := 16 }
         scope := some "Test::I::op"
         notes := [] }] :=
  exception_specification_validator_amended c1ExampleOperation
    { definition := .root "E1", span := { startPos := 10, endPos := 12 } }
    [{ definition := .root "E2", span := { startPos := 14, endPos := 16 } }]
    rfl (by decide)

/-- Counterexample to C1 as stated: a Slice2 operation with two
exception-specification entries produces one diagnostic, not one per entry,
and that diagnostic carries no note. -/
theorem exception_specification_validator_counterexample :
    (exception_specifications_can_only_be_used_in_slice1_mode c1ExampleOperation).length = 1
    ∧ c1ExampleOperation.exception_specification.length = 2
    ∧ (exception_specifications_can_only_be_used_in_slice1_mode c1ExampleOperation).map
        Diagnostic.notes = [[]] := by
  decide

/-! ## Claim C4 -/

/-- Claim C4 (amended): with an empty throws clause every `@throws` tag yields
one diagnostic; with a non-empty clause a resolved tag yields exactly one
diagnostic exactly when its exception neither equals nor derives from any
declared thrown exception — and every diagnostic produced is a Lint
`IncorrectDocComment`, never an Error, so the operation still compiles. -/
theorem validate_throws_tags_spec (comment : DocComment) (operation : Operation) :
    (validate_throws_tags comment operation).length
      = (comment.throws.filter (shouldFlagThrowsTag operation.exception_specification)).length
    ∧ ∀ d ∈ validate_throws_tags comment operation,
        ∃ msg, d.kind = DiagnosticKind.lintIncorrectDocComment msg := by
  constructor
  · unfold validate_throws_tags
    by_cases hempty : operation.exception_specification.isEmpty
    · have hp : shouldFlagThrowsTag operation.exception_specification = fun _ => true := by
        funext tag
        simp [shouldFlagThrowsTag, hempty]
      rw [hp]
      simp [validate_throws_tags_for_operation_with_no_throws_clause, hempty]
    · rw [if_neg hempty]
      apply length_filterMap_eq_length_filter
      intro tag
      cases htt : tag.thrown_type with
      | error e => simp [shouldFlagThrowsTag, hempty, htt]
      | ok documented =>
        simp only [shouldFlagThrowsTag, hempty, if_false, Bool.false_eq_true, htt]
        by_cases hc : operation.exception_specification.any fun thrown =>
            is_documented_exception_compatible thrown.definition documented
        · have hc2 : (operation.exception_specification.any fun thrown =>
              decide (documented = thrown.definition) ||
                isTransitiveBaseOf thrown.definition documented) = true := by
            simp only [← compat_eq_claim]
            exact hc
          simp [hc, hc2]
        · have hc' : (operation.exception_specification.any fun thrown =>
              is_documented_exception_compatible thrown.definition documented) = false := by
            cases h3 : operation.exception_specification.any fun thrown =>
                is_documented_exception_compatible thrown.definition documented
            · rfl
            · exact absurd h3 hc
          have hc2 : (operation.exception_specification.any fun thrown =>
              decide (documented = thrown.definition) ||
                isTransitiveBaseOf thrown.definition documented) = false := by
            simp only [← compat_eq_claim]
            exact hc'
          simp [hc', hc2]
  · intro d hd
    unfold validate_throws_tags at hd
    by_cases hempty : operation.exception_specification.isEmpty
    · rw [if_pos hempty] at hd
      simp only [validate_throws_tags_for_operation_with_no_throws_clause, List.mem_map] at hd
      obtain ⟨tag, -, rfl⟩ := hd
      exact ⟨_, rfl⟩
    · rw [if_neg hempty] at hd
      simp only [validate_throws_tags_for_operation_with_throws_clause,
        List.mem_filterMap] at hd
      obtain ⟨tag, -, hft⟩ := hd
      cases htt : tag.thrown_type with
      | error e =>
        rw [htt] at hft
        simp at hft
      | ok documented =>
        rw [htt] at hft
        dsimp only at hft
        split at hft
        · simp at hft
        · obtain rfl := Option.some.inj hft
          exact ⟨_, rfl⟩

/-- Witness for C4 (amended): the operation declared with `throws E2` and
documented with an unrelated `@throws E3` produces exactly one lint. -/
theorem validate_throws_tags_spec_witness :
    (validate_throws_tags c4WitnessComment c4WitnessOperation).length = 1
    ∧ ∃ msg, c4WitnessDiagnostic.kind = DiagnosticKind.lintIncorrectDocComment msg :=
  ⟨((validate_throws_tags_spec c4WitnessComment c4WitnessOperation).1).trans (by decide),
    (validate_throws_tags_spec c4WitnessComment c4WitnessOperation).2 c4WitnessDiagnostic
      (by decide)⟩

/-- Counterexample to C4 as stated: the documented exception `E1` neither
equals nor is a transitive base of the declared thrown exception `E2`, yet
the validator produces no diagnostic at all (the code instead accepts `E1`
because `E1` derives from `E2`). -/
theorem validate_throws_tags_counterexample :
    c4E1 ≠ c4E2
    ∧ isTransitiveBaseOf c4E1 c4E2 = false
    ∧ c4ExampleOperation.exception_specification.map ExceptionRef.definition = [c4E2]
    ∧ validate_throws_tags c4ExampleComment c4ExampleOperation = [] := by
  decide

/-! ## Claim C5 -/

/-- Claim C5: the `@returns` tag validation is arity-sensitive — with zero
return members every tag is flagged; with one return member a tag is flagged
exactly when it carries an identifier; with two or more return members a tag
is flagged exactly when it carries an identifier matching no named return
member — and every diagnostic produced is a Lint `IncorrectDocComment`. -/
theorem validate_returns_tags_spec (comment : DocComment) (operation : Operation) :
    (validate_returns_tags comment operation).length
      = (comment.returns.filter (shouldFlagReturnsTag operation.return_members)).length
    ∧ ∀ d ∈ validate_returns_tags comment operation,
        ∃ msg, d.kind = DiagnosticKind.lintIncorrectDocComment msg := by
  constructor
  · unfold validate_returns_tags
    cases hrm : operation.return_members with
    | nil =>
      have hp : shouldFlagReturnsTag ([] : List Parameter) = fun _ => true := by
        funext tag
        simp [shouldFlagReturnsTag]
      rw [hp]
      simp [validate_returns_tags_for_operation_with_no_return_type]
    | cons p rest =>
      cases rest with
      | nil =>
        apply length_filterMap_eq_length_filter
        intro tag
        cases hti : tag.identifier <;> simp [shouldFlagReturnsTag, hti]
      | cons p2 rest2 =>
        apply length_filterMap_eq_length_filter
        intro tag
        cases hti : tag.identifier with
        | none => simp [shouldFlagReturnsTag, hti]
        | some id =>
          cases hcontains : ((p :: p2 :: rest2).map Parameter.identifier).contains id <;>
            simp only [shouldFlagReturnsTag, hti, hcontains] <;> simp
  · intro d hd
    unfold validate_returns_tags at hd
    cases hrm : operation.return_members with
    | nil =>
      rw [hrm] at hd
      simp only [validate_returns_tags_for_operation_with_no_return_type, List.mem_map] at hd
      obtain ⟨tag, -, rfl⟩ := hd
      exact ⟨_, rfl⟩
    | cons p rest =>
      rw [hrm] at hd
      cases rest with
      | nil =>
        simp only [validate_returns_tags_for_operation_with_single_return,
          List.mem_filterMap] at hd
        obtain ⟨tag, -, hft⟩ := hd
        cases hti : tag.identifier with
        | none =>
          rw [hti] at hft
          simp at hft
        | some id =>
          rw [hti] at hft
          dsimp only at hft
          obtain rfl := Option.some.inj hft
          exact ⟨_, rfl⟩
      | cons p2 rest2 =>
        simp only [validate_returns_tags_for_operation_with_return_tuple,
          List.mem_filterMap] at hd
        obtain ⟨tag, -, hft⟩ := hd
        cases hti : tag.identifier with
        | none =>
          rw [hti] at hft
          simp at hft
        | some id =>
          rw [hti] at hft
          dsimp only at hft
          split at hft
          · simp at hft
          · obtain rfl := Option.some.inj hft
            exact ⟨_, rfl⟩

/-- Witness for C5: on the operation returning the named tuple `(a, b)`, the
matching tag `a` is accepted and the unknown tag `z` yields the single lint. -/
theorem validate_returns_tags_spec_witness :
    (validate_returns_tags c5WitnessComment c5WitnessOperation).length = 1
    ∧ ∃ msg, c5WitnessDiagnostic.kind = DiagnosticKind.lintIncorrectDocComment msg :=
  ⟨((validate_returns_tags_spec c5WitnessComment c5WitnessOperation).1).trans (by decide),
    (validate_returns_tags_spec c5WitnessComment c5WitnessOperation).2 c5WitnessDiagnostic
      (by decide)⟩

/-! ## Claim C2 -/

/-- Every inheritance chain is non-empty. -/
theorem chain_cons (c : ClassDef) : ∃ level rest, c.chain = level :: rest := by
  cases c <;> exact ⟨_, _, rfl⟩

/-- Claim C2 (amended): encoding writes one slice per level of the inheritance
chain, most-derived first, each slice being a start-slice carrying the
type-id, that level's members in declaration order, and an end-slice carrying
the last-slice flag, true exactly at the root level; decoding mirrors this,
delegating to the base decoder after the end-slice, with no delegation at the
root. -/
theorem class_slicing_protocol (c : ClassDef) :
    iceEncode c = encodeSliceSeq c.chain ∧ iceDecode c = decodeSliceSeq c.chain := by
  induction c with
  | rootClass t members =>
    constructor
    · simp [iceEncode, ClassDef.chain, encodeSliceSeq, encodeSliceBlock]
    · simp [iceDecode, ClassDef.chain, decodeSliceSeq, decodeSliceBlock]
  | derivedClass t members base ih =>
    obtain ⟨level, rest, hb⟩ := chain_cons base
    constructor
    · simp only [iceEncode, ClassDef.chain, hb, ih.1, encodeSliceSeq, encodeSliceBlock,
        List.append_assoc, List.cons_append]
    · simp only [iceDecode, ClassDef.chain, hb, ih.2, decodeSliceSeq, decodeSliceBlock,
        List.append_assoc, List.cons_append]

/-- Counterexample to C2 as stated: for a one-level class, the generated
encode body passes no flag to the start-slice and carries the last-slice flag
on the end-slice, so it differs from the claimed trace in which the
start-slice carries the flag. -/
theorem class_slicing_counterexample :
    iceEncode c2ExampleClass ≠ claimed_encode_trace c2ExampleClass := by
  decide

/-! ## Claim C6 -/

/-- The filtered list is strictly shorter exactly when some element fails the
predicate. -/
theorem length_filter_lt_iff_any {α : Type} (p : α → Bool) (l : List α) :
    (l.filter p).length < l.length ↔ l.any (fun x => !p x) = true := by
  induction l with
  | nil => simp
  | cons x xs ih =>
    cases hpx : p x <;>
      simp [List.filter_cons, hpx, ih, Nat.lt_succ_iff, List.length_filter_le, Nat.succ_lt_succ_iff]

/-- Claim C6: a class with no members anywhere in its chain gets exactly one
parameterless constructor; otherwise it gets the one-shot constructor over
every chain member, plus the constructor restricted to non-default-initialized
members exactly when at least one chain member is default-initialized. -/
theorem primary_constructors_spec (class_def : ClassDef) :
    (class_def.all_data_members = [] →
        primary_constructors class_def = [{ parameters := [] }])
    ∧ (class_def.all_data_members ≠ [] →
        primary_constructors class_def =
          { parameters := class_def.all_data_members.map Member.identifier } ::
            (if class_def.all_data_members.any Member.default_init then
              [{ parameters :=
                  ((class_def.all_data_members.filter fun m => !m.default_init).map
                    Member.identifier) }]
            else [])) := by
  constructor
  · intro h
    simp [primary_constructors, h]
  · intro h
    have hne : class_def.all_data_members.isEmpty = false := by
      cases hm : class_def.all_data_members
      · exact absurd hm h
      · rfl
    unfold primary_constructors
    simp only [hne, Bool.false_eq_true, if_false]
    by_cases hany : class_def.all_data_members.any Member.default_init = true
    · have hlt : (class_def.all_data_members.filter fun m => !m.default_init).length <
          class_def.all_data_members.length := by
        rw [length_filter_lt_iff_any]
        simpa using hany
      simp [hlt, hany]
    · have hnlt : ¬(class_def.all_data_members.filter fun m => !m.default_init).length <
          class_def.all_data_members.length := by
        rw [length_filter_lt_iff_any]
        simpa using hany
      simp [hnlt, hany]

/-- Witness for C6: the empty class collapses to one parameterless
constructor; a class with one defaulted and one mandatory member gets the
one-shot constructor and the minimal constructor. -/
theorem primary_constructors_spec_witness :
    primary_constructors (.rootClass "C0" []) = [{ parameters := [] }]
    ∧ primary_constructors
        (.rootClass "C1"
          [{ identifier := "a", default_init := true },
            { identifier := "b", default_init := false }]) =
      [{ parameters := ["a", "b"] }, { parameters := ["b"] }] :=
  ⟨(primary_constructors_spec _).1 rfl,
    ((primary_constructors_spec _).2 (by decide)).trans (by decide)⟩

/-! ## Claim C7 -/

/-- Claim C7: the encoded-result constructor takes the single-value encode
path exactly when the operation has one return member (the tuple path
otherwise), and forces the Ice 1.1 (Slice1) encoding exactly when the return
value can contain classes, using the dispatch-provided encoding otherwise. -/
theorem encoded_result_payload_selection :
    (∀ parameters : List Parameter,
        (create_payload_method parameters = "CreatePayloadFromSingleReturnValue" ↔
          parameters.length = 1)
      ∧ (parameters.length ≠ 1 →
          create_payload_method parameters = "CreatePayloadFromReturnValueTuple"))
    ∧ (∀ dispatch_parameter : String,
        create_payload_encoding true dispatch_parameter = "Ice11Encoding")
    ∧ (∀ dispatch_parameter : String,
        create_payload_encoding false dispatch_parameter =
          dispatch_parameter ++ ".GetIceEncoding()") := by
  refine ⟨?_, fun d => rfl, fun d => rfl⟩
  intro parameters
  rcases parameters with _ | ⟨p, _ | ⟨p2, rest⟩⟩
  · exact ⟨by simp [create_payload_method], fun _ => rfl⟩
  · exact ⟨by simp [create_payload_method], fun h => absurd rfl h⟩
  · constructor
    · constructor
      · intro h
        exact absurd
          (show ("CreatePayloadFromReturnValueTuple" : String) =
              "CreatePayloadFromSingleReturnValue" from h)
          (by decide)
      · intro h
        simp [List.length_cons] at h
    · intro h
      rfl

/-- Witness for C7: concrete selections for a single return member, for no
return members, and for both values of the contains-classes flag. -/
theorem encoded_result_payload_selection_witness :
    create_payload_method [{ identifier := "r" }] = "CreatePayloadFromSingleReturnValue"
    ∧ create_payload_method [] = "CreatePayloadFromReturnValueTuple"
    ∧ create_payload_encoding true "dispatch" = "Ice11Encoding"
    ∧ create_payload_encoding false "dispatch" = "dispatch.GetIceEncoding()" :=
  ⟨(encoded_result_payload_selection.1 [{ identifier := "r" }]).1.mpr (by decide),
    (encoded_result_payload_selection.1 []).2 (by decide),
    encoded_result_payload_selection.2.1 "dispatch",
    (encoded_result_payload_selection.2.2 "dispatch").trans (by decide)⟩

/-! ## Claim C9 -/

/-- Claim C9: calling `supported_encodings()` on a `CustomType` whose field is
still unpopulated fails fast (it can never return a value); once the field is
populated, the call returns exactly the memoized set. -/
theorem supported_encodings_fail_fast (c : CustomType) :
    (c.supported_encodings = none →
        ∀ se : SupportedEncodings, CustomType.supported_encodings_call c ≠ Except.ok se)
    ∧ (∀ se : SupportedEncodings, c.supported_encodings = some se →
        CustomType.supported_encodings_call c = Except.ok se) := by
  constructor
  · intro h se
    simp [CustomType.supported_encodings_call, h]
  · intro se h
    simp [CustomType.supported_encodings_call, h]

/-- Witness for C9: an unlinked custom type rejects the call, a linked one
returns its memoized set. -/
theorem supported_encodings_fail_fast_witness :
    (CustomType.supported_encodings_call { identifier := "T", supported_encodings := none } ≠
        Except.ok { encodings := [CompilationMode.slice2] })
    ∧ CustomType.supported_encodings_call
        { identifier := "U",
          supported_encodings := some { encodings := [CompilationMode.slice2] } } =
        Except.ok { encodings := [CompilationMode.slice2] } :=
  ⟨(supported_encodings_fail_fast _).1 rfl _,
    (supported_encodings_fail_fast _).2 _ rfl⟩

/-! ## Claim C10 -/

/-- Claim C10: a directly supplied existing file without the `slice` extension
produces exactly one hard `Error::IO` diagnostic and is excluded, while the
same file merely encountered during directory recursion is silently excluded
with no diagnostic. -/
theorem non_slice_file_discovery (p : String) (ext : Option String)
    (allow_directories : Bool) (canonicalize : String → Option String)
    (hext : ext ≠ some "slice") :
    find_slice_files [.file p ext] allow_directories canonicalize =
        ([], [ioDiagnostic p
          ("Slice files must end with a " ++ q ++ ".slice" ++ q ++ " extension")])
    ∧ find_slice_files_in_path (.file p ext) = ([], [])
    ∧ (ioDiagnostic p
        ("Slice files must end with a " ++ q ++ ".slice" ++ q ++ " extension")).kind.isError
        = true := by
  have hslice : FsEntry.is_slice_file (.file p ext) = false := by
    simp [FsEntry.is_slice_file, hext]
  refine ⟨?_, ?_, rfl⟩
  · simp [find_slice_files, find_slice_files_step, FsEntry.pathExists, FsEntry.is_file,
      FsEntry.path, hslice]
  · simp [find_slice_files_in_path, hslice]

/-- Witness for C10: the concrete file `README.md`. -/
theorem non_slice_file_discovery_witness :
    find_slice_files [.file "README.md" (some "md")] true (fun s => some s) =
        ([], [ioDiagnostic "README.md"
          ("Slice files must end with a " ++ q ++ ".slice" ++ q ++ " extension")])
    ∧ find_slice_files_in_path (.file "README.md" (some "md")) = ([], [])
    ∧ (ioDiagnostic "README.md"
        ("Slice files must end with a " ++ q ++ ".slice" ++ q ++ " extension")).kind.isError
        = true :=
  non_slice_file_discovery "README.md" (some "md") true (fun s => some s) (by decide)

/-! ## Claim C8 -/

/-- Claim C8: `resolve_files_from` deduplicates by canonical path — the same
canonical path supplied once as a source and once as a reference resolves to
exactly one unit marked as a source with zero diagnostics, while the same
canonical path twice within the sources, or twice within the references,
leaves one unit and produces exactly one `DuplicateFile` lint (never a hard
error). -/
theorem resolve_files_from_dedup
    (p1 p2 text c : String) (canonicalize read_to_string : String → Option String)
    (hc1 : canonicalize p1 = some c) (hc2 : canonicalize p2 = some c)
    (hr1 : read_to_string p1 = some text) (hr2 : read_to_string p2 = some text) :
    (resolve_files_from
        { sources := [.file p1 (some "slice")], references := [.file p2 (some "slice")] }
        canonicalize read_to_string
      = ([{ path := p2, raw_text := text, is_source := true }], []))
    ∧ (resolve_files_from
        { sources := [.file p1 (some "slice"), .file p2 (some "slice")], references := [] }
        canonicalize read_to_string
      = ([{ path := p1, raw_text := text, is_source := true }],
          [{ kind := .lintDuplicateFile p2, span := none, scope := none, notes := [] }]))
    ∧ (resolve_files_from
        { sources := [], references := [.file p1 (some "slice"), .file p2 (some "slice")] }
        canonicalize read_to_string
      = ([{ path := p1, raw_text := text, is_source := false }],
          [{ kind := .lintDuplicateFile p2, span := none, scope := none, notes := [] }])) := by
  refine ⟨?_, ?_, ?_⟩ <;>
    simp [resolve_files_from, find_slice_files, find_slice_files_step, find_slice_files_in_path,
      insert_reference_files, insert_source_files, insertFilePath, read_files,
      FsEntry.pathExists, FsEntry.is_file, FsEntry.is_dir, FsEntry.is_slice_file, FsEntry.path,
      hc1, hc2, hr1, hr2]

/-- Witness for C8: concrete paths sharing one canonical form. -/
theorem resolve_files_from_dedup_witness :
    (resolve_files_from
        { sources := [.file "a.slice" (some "slice")],
          references := [.file "b.slice" (some "slice")] }
        (fun _ => some "C") (fun _ => some "text")
      = ([{ path := "b.slice", raw_text := "text", is_source := true }], []))
    ∧ (resolve_files_from
        { sources := [.file "a.slice" (some "slice"), .file "b.slice" (some "slice")],
          references := [] }
        (fun _ => some "C") (fun _ => some "text")
      = ([{ path := "a.slice", raw_text := "text", is_source := true }],
          [{ kind := .lintDuplicateFile "b.slice", span := none, scope := none, notes := [] }]))
    ∧ (resolve_files_from
        { sources := [],
          references := [.file "a.slice" (some "slice"), .file "b.slice" (some "slice")] }
        (fun _ => some "C") (fun _ => some "text")
      = ([{ path := "a.slice", raw_text := "text", is_source := false }],
          [{ kind := .lintDuplicateFile "b.slice", span := none, scope := none, notes := [] }])) :=
  resolve_files_from_dedup "a.slice" "b.slice" "text" "C"
    (fun _ => some "C") (fun _ => some "text") rfl rfl rfl rfl

end Slicec
